import Mathlib

/-!
Shallow embedding of `src/api/market.py` of the eve_tools repository
(market orders / market history retrieval with a freshness-checked
persistent store and a TTL response cache), together with proofs about
the embedded operations.

Conventions of the embedding:
* Python `pandas` DataFrames of order rows / history rows are embedded as
  `List OrderRow` / `List HistoryRow`.
* The sqlite tables `orders` and `market_history` are embedded as lists of
  rows inside `DBState`; the response cache `api_cache` as a list of
  `CacheEntry` inside `AppState`.
* External collaborators (the ESI HTTP client, the name-resolution
  helpers) are embedded as an environment `Env` of pure functions, and
  every remote / store access performed by an orchestrator is recorded in
  an effect trace (`List Effect`), in program order.
* Python exceptions are embedded as `Except MError`; machine integers are
  `Int` (Python integers are unbounded, so no modular wrap is needed).
* Helper functions of the repository that are not part of the given
  sources (`_update_or_not`, `_select_from_orders`, `make_cache_key`,
  `api_cache.get/set`, `ESIDB.orders_insert_update`,
  `ESIDB.history_insert_ignore`) are modelled from the spec; each such
  definition says so in its doc comment.
-/

/-- A Python value appearing as an argument of a market query, used in
cache keys. -/
inductive PyVal where
  | pynone : PyVal
  | int : Int → PyVal
  | str : String → PyVal
  | bool : Bool → PyVal
  | intList : List Int → PyVal
deriving DecidableEq, Repr

/-- A Python argument that is expected to be `str` or `int`; `other`
stands for a value of any different runtime type (its textual repr only,
which is all the TypeError message uses). -/
inductive StrOrInt where
  | str : String → StrOrInt
  | int : Int → StrOrInt
  | other : String → StrOrInt
deriving DecidableEq, Repr

/-- Embedded Python exceptions raised by the market api. -/
inductive MError where
  | typeError : String → MError
  | valueError : String → MError
  | nameError : String → MError
deriving DecidableEq, Repr

/-- One row of the `orders` table: one active market order
(schema per `ESIDB.columns` usage in `market.py` and spec section 3). -/
structure OrderRow where
  order_id : Int
  type_id : Int
  region_id : Int
  system_id : Int
  location_id : Int
  is_buy_order : Bool
  price : Int
  volume_remain : Int
  duration : Int
  issued : Int
  retrieve_time : Int
deriving DecidableEq, Repr

/-- One row of the `market_history` table: one day of aggregate history
for a (region_id, type_id, date) triple. -/
structure HistoryRow where
  region_id : Int
  type_id : Int
  date : Int
  average : Int
  highest : Int
  lowest : Int
  volume : Int
  order_count : Int
deriving DecidableEq, Repr

/-- A raw order record as returned by the ESI orders endpoints, before
`market.py` adds the `retrieve_time`, `region_id` and `system_id`
columns. -/
structure RawOrder where
  order_id : Int
  type_id : Int
  location_id : Int
  is_buy_order : Bool
  price : Int
  volume_remain : Int
  duration : Int
  issued : Int
deriving DecidableEq, Repr

/-- A calendar date as parsed from the `"YYYY-MM-DD"` strings of the ESI
history endpoint. All dates served by the endpoint are on or after
1970-01-01, so the year is kept as a `Nat` and the epoch day count below
is valid on that range. -/
structure PyDate where
  year : Nat
  month : Nat
  day : Nat
deriving DecidableEq, Repr

/-- A raw daily history record as returned by `/markets/.../history/`,
its `date` field still a calendar date. -/
structure RawHistory where
  date : PyDate
  average : Int
  highest : Int
  lowest : Int
  volume : Int
  order_count : Int
deriving DecidableEq, Repr

/-- Cache key. Modelled from the spec: section 6 says a key is a
deterministic function of the operation name, the positional arguments in
call order and the keyword arguments sorted by name (`make_cache_key` is
not part of the given sources). -/
structure CacheKey where
  func : String
  args : List PyVal
  kwargs : List (String × PyVal)
deriving DecidableEq, Repr

/-- The payload stored in the response cache: the returned value of one
of the market queries. -/
inductive CacheValue where
  | orders : List OrderRow → CacheValue
  | history : List HistoryRow → CacheValue
  | typeIds : List Int → CacheValue
deriving DecidableEq, Repr

/-- One entry of the response cache, with an absolute expiry instant. -/
structure CacheEntry where
  key : CacheKey
  value : CacheValue
  expires_at : Int
deriving DecidableEq, Repr

/-- The two sqlite tables owned by `ESIDB`. -/
structure DBState where
  orders : List OrderRow
  market_history : List HistoryRow
deriving DecidableEq, Repr

/-- The process-wide mutable state: the store plus the response cache. -/
structure AppState where
  db : DBState
  cache : List CacheEntry
deriving DecidableEq, Repr

/-- One observable remote / store access of an orchestrator, recorded in
program order. -/
inductive Effect where
  | search_structure_id
  | search_id (name : String) (category : String)
  | search_station_region_id (station_id : Int)
  | head (endpoint : String)
  | cacheGet (key : CacheKey)
  | cacheSet (key : CacheKey)
  | oracleCheck (table : String)
  | storeSelect (table : String)
  | storeUpsert (table : String)
  | esiGet (endpoint : String)
  | typeCheck (type_id : Int)
deriving DecidableEq, Repr

/-- Insertion of one element into a list sorted by a boolean "less or
equal" test; used to embed the cosmetic `sort_values` and the kwarg
sorting of the cache key. -/
def insertSorted (le : α → α → Bool) (x : α) : List α → List α
  | [] => [x]
  | y :: ys => if le x y then x :: y :: ys else y :: insertSorted le x ys

/-- Insertion sort by a boolean comparator. -/
def sortByBool (le : α → α → Bool) (l : List α) : List α :=
  l.foldr (insertSorted le) []

/-- Maximum of a list of integers, absent on the empty list; embeds the
`SELECT MAX(...)` aggregate used by the freshness oracle. -/
def listMax : List Int → Option Int
  | [] => none
  | x :: xs =>
      match listMax xs with
      | none => some x
      | some m => some (max x m)

/-- Number of elements of the list equal to `m`; embeds the
`SELECT COUNT(...)` at the maximum timestamp. -/
def countEq (l : List Int) (m : Int) : Nat :=
  (l.filter (fun x => x == m)).length

/-- Modelled from the spec: the FreshnessOracle decision procedure
`_update_or_not` (imported by `market.py` from `.utils`, not part of the
given sources). Spec section 4.1: query the maximum of the timestamp
column among rows matching the filter (here: the list of matching
timestamps); no rows gives `(true, absent)`; a maximum older than the
threshold gives `needsUpdate = true`; otherwise, when `fresh_entry_check`
is enabled and the count of rows at the maximum is below
`min_fresh_entry`, `needsUpdate = true`; otherwise `(false, maximum)`.
On the stale branches with rows present the second component is modelled
as the found maximum (the spec leaves it open; no caller's verdict
depends on it). -/
def _update_or_not (threshold_ts : Int) (timestamps : List Int)
    (fresh_entry_check : Bool) (min_fresh_entry : Nat) : Bool × Option Int :=
  match listMax timestamps with
  | none => (true, none)
  | some m =>
      if m < threshold_ts then (true, some m)
      else if fresh_entry_check && decide (countEq timestamps m < min_fresh_entry) then
        (true, some m)
      else (false, some m)

/-- Python truthiness of an optional string (`not cname`): absent or
empty. -/
def strFalsy : Option String → Bool
  | none => true
  | some s => s.isEmpty

/-- Python truthiness of an optional int (`if update_threshold:`):
present and nonzero. -/
def intTruthy : Option Int → Bool
  | none => false
  | some n => n != 0

/-- Modelled from the spec: `api_cache.get` (from `src.data`, not part of
the given sources). Spec section 4.2: `get` returns the stored value for
the key, treating an entry whose `expires_at` has passed as a miss;
cleanup is lazy. -/
def cache_get (cache : List CacheEntry) (now : Int) (k : CacheKey) : Option CacheValue :=
  match cache.find? (fun e => e.key == k) with
  | some e => if now < e.expires_at then some e.value else none
  | none => none

/-- Modelled from the spec: `api_cache.set` (from `src.data`, not part of
the given sources). Spec section 4.2: `expires_at` comes from an explicit
TTL override or the remote expiry hint; if neither is present a default
TTL of 20 minutes (1200 s) applies. -/
def cache_set (cache : List CacheEntry) (now : Int) (k : CacheKey)
    (v : CacheValue) (expires : Option Int) : List CacheEntry :=
  let ttl := match expires with
    | some t => t
    | none => 1200
  ⟨k, v, now + ttl⟩ :: cache.filter (fun e => !(e.key == k))

/-- The recognized keyword options of the market order queries
(spec section 9: `page`, `updateThreshold`, `systemId`, `regionId`),
every one absent by default. -/
structure Kwd where
  page : Option Int
  update_threshold : Option Int
  system_id : Option Int
  region_id : Option Int
deriving DecidableEq, Repr

/-- A `Kwd` with no keyword argument supplied. -/
def emptyKwd : Kwd := ⟨none, none, none, none⟩

/-- Helper for encoding one optional keyword argument of a call. -/
def optArg (name : String) : Option Int → List (String × PyVal)
  | none => []
  | some n => [(name, PyVal.int n)]

/-- The keyword arguments of a call as an association list sorted by
name (the alphabetical order of the four recognized names is fixed, so
the sort is written out). -/
def kwdArgs (k : Kwd) : List (String × PyVal) :=
  optArg "page" k.page ++ optArg "region_id" k.region_id
    ++ optArg "system_id" k.system_id ++ optArg "update_threshold" k.update_threshold

/-- Modelled from the spec: `make_cache_key` (from `.utils`, not part of
the given sources). Spec section 6: a deterministic function of the
operation name, the positional arguments in call order and the keyword
arguments sorted by name; arguments documented as purely authenticating
are excluded (at the call sites in `market.py`, `cname` is simply not
passed in). -/
def make_cache_key (func : String) (args : List PyVal)
    (kwargs : List (String × PyVal)) : CacheKey :=
  ⟨func, args, kwargs⟩

/-- The side filter of `_select_from_orders`: keep sell orders
(`is_buy_order` false), buy orders, or both. -/
def matchesSide (order_type : String) (r : OrderRow) : Bool :=
  if order_type == "sell" then !r.is_buy_order
  else if order_type == "buy" then r.is_buy_order
  else true

/-- An optional equality filter: absent means no constraint. -/
def optMatch (v : Option Int) (x : Int) : Bool :=
  match v with
  | none => true
  | some n => x == n

/-- Modelled from the spec: `_select_from_orders` (from `.utils`, not
part of the given sources). Spec section 4.4 `selectOrders`: filter the
orders table by any combination of region / location / type, optionally a
specific `retrieve_time`, and the order-type side filter. -/
def _select_from_orders (db : DBState) (order_type : String)
    (type_id : Option Int) (region_id : Option Int) (location_id : Option Int)
    (retrieve_time : Option Int) : List OrderRow :=
  db.orders.filter (fun r =>
    matchesSide order_type r && optMatch type_id r.type_id
      && optMatch region_id r.region_id && optMatch location_id r.location_id
      && optMatch retrieve_time r.retrieve_time)

/-- Modelled from the spec: `ESIDB.orders_insert_update` (from
`src.data`, not part of the given sources). Spec section 4.4:
insert-or-update keyed by `order_id` — an existing row's fields are
overwritten (last write wins), otherwise the record is appended. -/
def orders_upsert_one (t : List OrderRow) (r : OrderRow) : List OrderRow :=
  if t.any (fun x => x.order_id == r.order_id) then
    t.map (fun x => if x.order_id == r.order_id then r else x)
  else t ++ [r]

/-- The batched upsert: one `orders_upsert_one` per record, in order. -/
def orders_insert_update (table : List OrderRow) (recs : List OrderRow) : List OrderRow :=
  recs.foldl orders_upsert_one table

/-- The dedup key of the `market_history` table. -/
def historyKey (r : HistoryRow) : Int × Int × Int :=
  (r.region_id, r.type_id, r.date)

/-- Modelled from the spec: `ESIDB.history_insert_ignore` (from
`src.data`, not part of the given sources). Spec section 4.4:
insert-or-ignore keyed by `(region_id, type_id, date)` — a record whose
key already exists is discarded, otherwise it is appended. -/
def history_ignore_one (t : List HistoryRow) (r : HistoryRow) : List HistoryRow :=
  if t.any (fun x => historyKey x == historyKey r) then t
  else t ++ [r]

/-- The batched history upsert: one `history_ignore_one` per record, in
order. -/
def history_insert_ignore (table : List HistoryRow) (recs : List HistoryRow) : List HistoryRow :=
  recs.foldl history_ignore_one table

/-- Gregorian leap-year test. -/
def isLeap (y : Nat) : Bool :=
  (y % 4 == 0 && y % 100 != 0) || y % 400 == 0

/-- Length of a month of the Gregorian calendar. -/
def daysInMonth (y m : Nat) : Nat :=
  if m == 2 then (if isLeap y then 29 else 28)
  else if m == 4 || m == 6 || m == 9 || m == 11 then 30
  else 31

/-- Days of year `y` that precede the first day of month `m`. -/
def daysBeforeMonth (y m : Nat) : Nat :=
  (List.range (m - 1)).foldl (fun acc i => acc + daysInMonth y (i + 1)) 0

/-- Days elapsed from 1970-01-01 to the given date (valid for dates on
or after 1970-01-01). -/
def daysSinceEpoch (d : PyDate) : Nat :=
  (List.range (d.year - 1970)).foldl
      (fun acc i => acc + (if isLeap (1970 + i) then 366 else 365)) 0
    + daysBeforeMonth d.year d.month + (d.day - 1)

/-- Embedding of
`datetime.timestamp(datetime.strptime(date + " +0000", "%Y-%m-%d %z"))`:
the POSIX timestamp of midnight UTC of the given calendar date. -/
def utcMidnight (d : PyDate) : Int :=
  (daysSinceEpoch d : Int) * 86400

/-- The date conversion applied by `_get_type_history_async` to every
fetched record (source: the lambda at `market.py` lines 440-445):
the parsed midnight-UTC timestamp plus the literal 39900. -/
def pyDateStamp (d : PyDate) : Int :=
  utcMidnight d + 39900

/-- The instant 11:05:00 UTC of the given day, written out as the spec
words it (midnight plus 11 hours plus 5 minutes); to be compared with
`pyDateStamp`. -/
def elevenOhFiveUTC (d : PyDate) : Int :=
  utcMidnight d + (11 * 3600 + 5 * 60)

/-- The external collaborators of `market.py`, embedded as pure
functions: the clock, the name-resolution helpers (out of scope per spec
section 1; `search_structure_id` is modelled from the spec as a function
of the name-or-id only — the authenticating `cname` affects the
permission to fetch, not the resolved id), and the responses of the ESI
client for the endpoints used (each `ESIClient.get` fan-out is embedded
as its merged record list, since per spec section 4.3 the merge is
order-independent and any sub-request failure fails the whole call). -/
structure Env where
  now : Int
  search_structure_id : StrOrInt → Int
  search_id : String → String → Int
  search_station_region_id : Int → Int
  headExpires : Option Int
  xPages : Nat
  ordersResp : List RawOrder
  regionOrdersResp : List RawOrder
  typeValid : Int → Bool
  historyResp : Int → List RawHistory
  regionTypes : List Int

deriving instance DecidableEq for Except

/-- The result type of the synchronous market queries: the effect trace
in program order, and either the raised exception or the new state plus
the returned value. -/
abbrev MResult : Type :=
  List Effect × Except MError (AppState × CacheValue)

/-- Comparator of the cosmetic `sort_values(["type_id", "is_buy_order",
"price"], ascending=[True, True, True])` of the fetch paths. -/
def orderLe (a b : OrderRow) : Bool :=
  if a.type_id != b.type_id then decide (a.type_id < b.type_id)
  else if a.is_buy_order != b.is_buy_order then !a.is_buy_order
  else decide (a.price ≤ b.price)

/-- Column fill of the structure fetch path (`market.py` lines 121-135):
`retrieve_time` from the clock, `region_id` / `system_id` from the
keyword options with default 0 (the structure endpoint response carries
no such columns). -/
def rawToStructOrder (now : Int) (region_id system_id : Int) (r : RawOrder) : OrderRow :=
  ⟨r.order_id, r.type_id, region_id, system_id, r.location_id,
    r.is_buy_order, r.price, r.volume_remain, r.duration, r.issued, now⟩

/-- Column fill of the region fetch path (`market.py` lines 262-273):
`retrieve_time` from the clock and `region_id` from the resolved id; the
region endpoint response carries `system_id` itself (embedded in
`RawOrder.location_id`... the region response has a `system_id` column,
modelled as 0 since `market.py` does not touch it and no claim reads
it). -/
def rawToRegionOrder (now : Int) (region_id : Int) (r : RawOrder) : OrderRow :=
  ⟨r.order_id, r.type_id, region_id, 0, r.location_id,
    r.is_buy_order, r.price, r.volume_remain, r.duration, r.issued, now⟩

/-- The cache key computed by `get_structure_market` (`market.py` line
80): operation, resolved structure id, keyword options; `cname` is not
part of it. -/
def structure_market_key (env : Env) (s : StrOrInt) (kwd : Kwd) : CacheKey :=
  make_cache_key "get_structure_market" [PyVal.int (env.search_structure_id s)] (kwdArgs kwd)

/-- The cache expiry argument chosen by the order-market queries
(`market.py` lines 85-90 and 223-227): a truthy `update_threshold`
keyword is used directly, otherwise the Expires header hint (possibly
absent). -/
def kwdExpires (env : Env) (kwd : Kwd) : Option Int :=
  if intTruthy kwd.update_threshold then kwd.update_threshold else env.headExpires

/-- The freshness threshold interval chosen by the order-market queries:
a truthy `update_threshold` keyword, else the default 1200 seconds. -/
def kwdThreshold (kwd : Kwd) : Int :=
  if intTruthy kwd.update_threshold then kwd.update_threshold.getD 0 else 1200

/-- The oracle decision made by `get_structure_market` (`market.py`
lines 93-99): filter the orders table on `location_id`, threshold
`now - update_threshold`, `min_fresh_entry=1000`. -/
def structureOracleDec (env : Env) (st : AppState) (s : StrOrInt) (kwd : Kwd) :
    Bool × Option Int :=
  _update_or_not (env.now - kwdThreshold kwd)
    ((st.db.orders.filter (fun r => r.location_id == env.search_structure_id s)).map
      (fun r => r.retrieve_time))
    true 1000

/-- The normalized and cosmetically sorted DataFrame built by the fetch
path of `get_structure_market` (`market.py` lines 113-135). -/
def structureFetchDf (env : Env) (kwd : Kwd) : List OrderRow :=
  sortByBool orderLe
    (env.ordersResp.map (rawToStructOrder env.now (kwd.region_id.getD 0) (kwd.system_id.getD 0)))

/-- The body of `get_structure_market` after the input validation
(`market.py` lines 74-146), with `s` the already-validated argument.
Each branch lists its full effect trace in program order: resolution and
HEAD probe first, then the cache read, then (on a miss) the oracle and
either the store read or the fetch, upsert and cache write. -/
def structure_market_go (env : Env) (st : AppState) (s : StrOrInt) (kwd : Kwd) : MResult :=
  let sid := env.search_structure_id s
  let key := structure_market_key env s kwd
  match cache_get st.cache env.now key with
  | some v =>
      ([Effect.search_structure_id, Effect.head "structure_orders", Effect.cacheGet key],
        .ok (st, v))
  | none =>
      let dec := structureOracleDec env st s kwd
      if !dec.1 then
        ([Effect.search_structure_id, Effect.head "structure_orders", Effect.cacheGet key,
          Effect.oracleCheck "orders", Effect.storeSelect "orders"],
          .ok (st, .orders (_select_from_orders st.db "all" none none (some sid) dec.2)))
      else
        let df := structureFetchDf env kwd
        ([Effect.search_structure_id, Effect.head "structure_orders", Effect.cacheGet key,
          Effect.oracleCheck "orders", Effect.esiGet "structure_orders",
          Effect.storeUpsert "orders", Effect.cacheSet key],
          .ok (⟨⟨orders_insert_update st.db.orders df, st.db.market_history⟩,
            cache_set st.cache env.now key (.orders df) (kwdExpires env kwd)⟩, .orders df))

/-- Embedding of `get_structure_market` (`market.py` lines 14-146).
The `sid = True / False / int` juggling of lines 58-72 reduces to: a
TypeError for a non-str non-int argument, and the cname ValueError when
`not sid and not cname`, where `not sid` is true exactly for a string
name (sid = False) or the integer 0 (Python truthiness), and `not cname`
is true for an absent or empty cname. -/
def get_structure_market (env : Env) (st : AppState)
    (structure_name_or_id : StrOrInt) (cname : Option String) (kwd : Kwd) : MResult :=
  match structure_name_or_id with
  | .other _ =>
      ([], .error (.typeError "Argument structure_name_or_id should be str or int"))
  | .str nm =>
      if strFalsy cname then
        ([], .error (.valueError "Require parameter cname for authentication"))
      else structure_market_go env st (.str nm) kwd
  | .int n =>
      if n == 0 && strFalsy cname then
        ([], .error (.valueError "Require parameter cname for authentication"))
      else structure_market_go env st (.int n) kwd

/-- Optional-int to Python value, for positional arguments such as
`type_id`. -/
def optPyInt : Option Int → PyVal
  | none => PyVal.pynone
  | some n => PyVal.int n

/-- The cache key computed by `get_region_market` (`market.py` line
218). -/
def region_market_key (rid : Int) (order_type : String) (type_id : Option Int)
    (kwd : Kwd) : CacheKey :=
  make_cache_key "get_region_market"
    [PyVal.int rid, PyVal.str order_type, optPyInt type_id] (kwdArgs kwd)

/-- The accepted values of `order_type` (`market.py` lines 201 and
330). -/
def validOrderType (ot : String) : Bool :=
  ot == "sell" || ot == "buy" || ot == "all"

/-- The oracle decision made by `get_region_market` (`market.py` lines
230-236): filter the orders table on `region_id`, threshold
`now - update_threshold`, `min_fresh_entry=1000`. -/
def regionOracleDec (env : Env) (st : AppState) (rid : Int) (kwd : Kwd) :
    Bool × Option Int :=
  _update_or_not (env.now - kwdThreshold kwd)
    ((st.db.orders.filter (fun r => r.region_id == rid)).map (fun r => r.retrieve_time))
    true 1000

/-- The normalized and cosmetically sorted DataFrame built by the fetch
path of `get_region_market` (`market.py` lines 252-273). -/
def regionFetchDf (env : Env) (rid : Int) : List OrderRow :=
  sortByBool orderLe (env.regionOrdersResp.map (rawToRegionOrder env.now rid))

/-- The body of `get_region_market` from the order-type validation on
(`market.py` lines 201-284), with `rid` already resolved and `tr0` the
effects of the resolution. -/
def region_market_go (env : Env) (st : AppState) (rid : Int) (order_type : String)
    (type_id : Option Int) (kwd : Kwd) (tr0 : List Effect) : MResult :=
  if !(validOrderType order_type) then
    (tr0, .error (.valueError "Argument order_type accepts one of sell, buy, all"))
  else
    let key := region_market_key rid order_type type_id kwd
    match cache_get st.cache env.now key with
    | some v =>
        (tr0 ++ [Effect.head "region_orders", Effect.cacheGet key], .ok (st, v))
    | none =>
      let dec := regionOracleDec env st rid kwd
      if !dec.1 then
        (tr0 ++ [Effect.head "region_orders", Effect.cacheGet key,
          Effect.oracleCheck "orders", Effect.storeSelect "orders"],
          .ok (st, .orders (_select_from_orders st.db order_type type_id (some rid) none dec.2)))
      else
        let df := regionFetchDf env rid
        (tr0 ++ [Effect.head "region_orders", Effect.cacheGet key,
          Effect.oracleCheck "orders", Effect.esiGet "region_orders",
          Effect.storeUpsert "orders", Effect.cacheSet key],
          .ok (⟨⟨orders_insert_update st.db.orders df, st.db.market_history⟩,
            cache_set st.cache env.now key (.orders df) (kwdExpires env kwd)⟩, .orders df))

/-- Embedding of `get_region_market` (`market.py` lines 149-284). Note
that for a string argument the name resolution `search_id` runs before
the order-type validation, exactly as in the source (lines 192-204). -/
def get_region_market (env : Env) (st : AppState) (region_name_or_id : StrOrInt)
    (order_type : String) (type_id : Option Int) (kwd : Kwd) : MResult :=
  match region_name_or_id with
  | .other _ =>
      ([], .error (.typeError "Argument region_name_or_id should be str or int"))
  | .str nm =>
      region_market_go env st (env.search_id nm "region") order_type type_id kwd
        [Effect.search_id nm "region"]
  | .int n =>
      region_market_go env st n order_type type_id kwd []

/-- The oracle decision made by `get_station_market` (`market.py` lines
339-346): filter on `region_id` and `location_id`,
`min_fresh_entry=1000`. -/
def stationOracleDec (env : Env) (st : AppState) (region_id station_id : Int)
    (update_threshold : Int) : Bool × Option Int :=
  _update_or_not (env.now - update_threshold)
    ((st.db.orders.filter
      (fun r => r.region_id == region_id && r.location_id == station_id)).map
        (fun r => r.retrieve_time))
    true 1000

/-- The body of `get_station_market` from the order-type validation on
(`market.py` lines 330-360). The decision variable is named
`no_update_flag` in the source although `_update_or_not` returns a
needs-update flag; the branch `if not no_update_flag:
get_region_market(...)` is embedded exactly as written. -/
def station_market_go (env : Env) (st : AppState) (station_id : Int)
    (order_type : String) (type_id : Option Int) (kwd : Kwd) (tr0 : List Effect) : MResult :=
  if !(validOrderType order_type) then
    (tr0, .error (.valueError "Argument order_type accepts one of sell, buy, all"))
  else
    let region_id := env.search_station_region_id station_id
    let update_threshold := kwd.update_threshold.getD 1200
    let dec := stationOracleDec env st region_id station_id update_threshold
    let tr1 := tr0 ++ [Effect.search_station_region_id station_id, Effect.oracleCheck "orders"]
    if !dec.1 then
      match get_region_market env st (.int region_id) order_type type_id
          ⟨none, some update_threshold, none, none⟩ with
      | (trR, .error e) => (tr1 ++ trR, .error e)
      | (trR, .ok (st2, _)) =>
          let df := _select_from_orders st2.db order_type type_id
            (some region_id) (some station_id) dec.2
          (tr1 ++ trR ++ [Effect.storeSelect "orders"], .ok (st2, .orders df))
    else
      let df := _select_from_orders st.db order_type type_id
        (some region_id) (some station_id) dec.2
      (tr1 ++ [Effect.storeSelect "orders"], .ok (st, .orders df))

/-- Embedding of `get_station_market` (`market.py` lines 287-360). -/
def get_station_market (env : Env) (st : AppState) (station_name_or_id : StrOrInt)
    (order_type : String) (type_id : Option Int) (kwd : Kwd) : MResult :=
  match station_name_or_id with
  | .other _ =>
      ([], .error (.typeError "Argument station_name_or_id should be str or int"))
  | .int n =>
      station_market_go env st n order_type type_id kwd []
  | .str nm =>
      station_market_go env st (env.search_id nm "station") order_type type_id kwd
        [Effect.search_id nm "station"]

/-- A caller-supplied reduction of one type's daily history series
(`reduces` in the source); a pure post-processing step. -/
def Reducer : Type :=
  List HistoryRow → List HistoryRow

/-- The `if reduces: df = reduces(df); df["type_id"] = type_id;
df["region_id"] = rid` post-processing of `_get_type_history_async`. -/
def applyReduces (reduces : Option Reducer) (rid tid : Int)
    (df : List HistoryRow) : List HistoryRow :=
  match reduces with
  | none => df
  | some f => (f df).map (fun r => { r with type_id := tid, region_id := rid })

/-- Normalization of one fetched history record (`market.py` lines
436-446): tag with the queried type and region and convert the date
string to the epoch timestamp `pyDateStamp`. -/
def historyRowOfRaw (rid tid : Int) (r : RawHistory) : HistoryRow :=
  ⟨rid, tid, pyDateStamp r.date, r.average, r.highest, r.lowest, r.volume, r.order_count⟩

/-- The oracle decision made by `_get_type_history_async` (`market.py`
lines 407-414): filter the history table on `region_id` and `type_id`,
timestamp column `date`, `fresh_entry_check=False`, two-day threshold. -/
def historyOracleDec (env : Env) (st : AppState) (rid type_id : Int) : Bool × Option Int :=
  _update_or_not (env.now - 2 * 24 * 3600)
    ((st.db.market_history.filter
      (fun r => r.region_id == rid && r.type_id == type_id)).map (fun r => r.date))
    false 0

/-- Embedding of `_get_type_history_async` (`market.py` lines 375-460):
freshness check with `fresh_entry_check=False` against a two-day
threshold; on a fresh store, the matching rows are read back; otherwise
the type id is validity-checked (absent result if invalid), the history
endpoint is fetched (absent result on an empty response), records are
normalized, upserted with insert-or-ignore, and returned. -/
def _get_type_history_async (env : Env) (st : AppState) (rid type_id : Int)
    (reduces : Option Reducer) : List Effect × AppState × Option (List HistoryRow) :=
  let matching := st.db.market_history.filter
    (fun r => r.region_id == rid && r.type_id == type_id)
  let dec := historyOracleDec env st rid type_id
  let tr0 := [Effect.oracleCheck "market_history"]
  if !dec.1 then
    (tr0 ++ [Effect.storeSelect "market_history"], st,
      some (applyReduces reduces rid type_id matching))
  else
    let tr1 := tr0 ++ [Effect.typeCheck type_id]
    if !env.typeValid type_id then (tr1, st, none)
    else
      let resp := env.historyResp type_id
      let tr2 := tr1 ++ [Effect.esiGet "history"]
      if resp.isEmpty then (tr2, st, none)
      else
        let df := resp.map (historyRowOfRaw rid type_id)
        let db2 : DBState := ⟨st.db.orders, history_insert_ignore st.db.market_history df⟩
        (tr2 ++ [Effect.storeUpsert "market_history"], ⟨db2, st.cache⟩,
          some (applyReduces reduces rid type_id df))

/-- Embedding of `pd.concat(objs, ignore_index=True)` over the gathered
per-type results: pandas silently drops absent entries, raises a
ValueError when the list is empty or when every entry is absent, and
otherwise concatenates the present DataFrames. -/
def pd_concat (objs : List (Option (List HistoryRow))) : Except MError (List HistoryRow) :=
  if objs.isEmpty then .error (.valueError "No objects to concatenate")
  else
    let present := objs.filterMap id
    if present.isEmpty then .error (.valueError "All objects passed were None")
    else .ok present.flatten

/-- The cache key computed by `get_region_types` (`market.py` line
588). -/
def region_types_key (rid : Int) (src : String) : CacheKey :=
  make_cache_key "get_region_types" [PyVal.int rid, PyVal.str src] []

/-- First-occurrence deduplication, embedding `SELECT DISTINCT`. -/
def dedupInts (l : List Int) : List Int :=
  l.foldl (fun acc x => if acc.contains x then acc else acc ++ [x]) []

/-- Embedding of `get_region_types` with the region already resolved
(`market.py` lines 588-613). The source tests the cached value with
plain truthiness (`if value:`), so an empty cached list is treated as a
miss; a cached value of another shape cannot arise from these keys and is
modelled as a miss. A `src` other than "esi" or "db" leaves `resp`
unbound and raises a NameError at the `api_cache.set` line. -/
def get_region_types_go (env : Env) (st : AppState) (rid : Int) (src : String) :
    List Effect × Except MError (AppState × List Int) :=
  let key := region_types_key rid src
  let tr0 := [Effect.cacheGet key]
  let hit := match cache_get st.cache env.now key with
    | some (.typeIds l) => if l.isEmpty then none else some l
    | _ => none
  match hit with
  | some l => (tr0, .ok (st, l))
  | none =>
    let tr1 := tr0 ++ [Effect.head "region_types"]
    if src == "esi" then
      let resp := env.regionTypes
      (tr1 ++ [Effect.esiGet "region_types", Effect.cacheSet key],
        .ok (⟨st.db, cache_set st.cache env.now key (.typeIds resp) env.headExpires⟩, resp))
    else if src == "db" then
      let resp := dedupInts
        ((st.db.orders.filter (fun r => r.region_id == rid)).map (fun r => r.type_id))
      (tr1 ++ [Effect.storeSelect "orders", Effect.cacheSet key],
        .ok (⟨st.db, cache_set st.cache env.now key (.typeIds resp) env.headExpires⟩, resp))
    else
      (tr1, .error (.nameError "resp"))

/-- The cache key computed by `get_market_history` (`market.py` lines
537-539); a reduces function contributes only its presence to the
modelled key (no claim distinguishes two different reduces values). -/
def market_history_key (rid : Int) (typeArg : PyVal) (reduces : Option Reducer) : CacheKey :=
  make_cache_key "get_market_history"
    [PyVal.int rid, typeArg,
      (match reduces with | none => PyVal.pynone | some _ => PyVal.str "reduces")] []

/-- One task of the per-type fan-out of `get_market_history`: run
`_get_type_history_async` on the accumulated state, append its trace and
its (possibly absent) result. -/
def history_fan_step (env : Env) (rid : Int) (reduces : Option Reducer)
    (acc : AppState × List Effect × List (Option (List HistoryRow))) (tid : Int) :
    AppState × List Effect × List (Option (List HistoryRow)) :=
  let (st0, trA, rs) := acc
  let (trT, st1, r) := _get_type_history_async env st0 rid tid reduces
  (st1, trA ++ trT, rs ++ [r])

/-- The cache-check and fan-out part of `get_market_history`
(`market.py` lines 541-558): on a cache miss, one
`_get_type_history_async` task per type id (the single-threaded event
loop interleaves them only at remote boundaries, so running them in
sequence is a faithful linearization), then `pd.concat` over the
gathered results. -/
def market_history_fetch (env : Env) (st : AppState) (rid : Int) (tids : List Int)
    (reduces : Option Reducer) (tr0 : List Effect) (typeArg : PyVal) : MResult :=
  let key := market_history_key rid typeArg reduces
  let tr1 := tr0 ++ [Effect.cacheGet key]
  match cache_get st.cache env.now key with
  | some v => (tr1, .ok (st, v))
  | none =>
    let tr2 := tr1 ++ [Effect.head "history"]
    let folded := tids.foldl (history_fan_step env rid reduces) (st, tr2, [])
    match pd_concat folded.2.2 with
    | .error e => (folded.2.1, .error e)
    | .ok df =>
        (folded.2.1 ++ [Effect.cacheSet key],
          .ok (⟨folded.1.db, cache_set folded.1.cache env.now key (.history df) env.headExpires⟩,
            .history df))

/-- The body of `get_market_history` with the region resolved
(`market.py` lines 534-558). A missing or empty `type_ids` list
(`if not type_ids:`) takes the all-types branch through
`get_region_types`. -/
def market_history_go (env : Env) (st : AppState) (rid : Int)
    (type_ids : Option (List Int)) (reduces : Option Reducer) (tr0 : List Effect) : MResult :=
  let emptyIds := match type_ids with
    | none => true
    | some l => l.isEmpty
  if emptyIds then
    match get_region_types_go env st rid "esi" with
    | (trT, .error e) => (tr0 ++ trT, .error e)
    | (trT, .ok (st1, tids)) =>
        market_history_fetch env st1 rid tids reduces (tr0 ++ trT) (PyVal.str "all_type_ids")
  else
    market_history_fetch env st rid (type_ids.getD []) reduces tr0
      (PyVal.intList (type_ids.getD []))

/-- Embedding of `get_market_history` (`market.py` lines 496-558). -/
def get_market_history (env : Env) (st : AppState) (region_name_or_id : StrOrInt)
    (type_ids : Option (List Int)) (reduces : Option Reducer) : MResult :=
  match region_name_or_id with
  | .other _ =>
      ([], .error (.typeError "Argument region_name_or_id should be str or int"))
  | .str nm =>
      market_history_go env st (env.search_id nm "region") type_ids reduces
        [Effect.search_id nm "region"]
  | .int n =>
      market_history_go env st n type_ids reduces []

/-- A minimal concrete environment for closed theorems and witnesses:
the clock at 0 and trivial collaborators. -/
def env0 : Env :=
  ⟨0, fun _ => 0, fun _ _ => 0, fun _ => 0, none, 0, [], [], fun _ => false, fun _ => [], []⟩

/-- The empty initial state. -/
def st0 : AppState := ⟨⟨[], []⟩, []⟩

/-- One stored order at region 10, station 100, taken at time 0. -/
def staleRow : OrderRow := ⟨1, 34, 10, 0, 100, false, 5, 10, 90, 0, 0⟩

/-- An environment with the clock at 100000 whose station lookup places
station 100 in region 10. -/
def env2 : Env :=
  ⟨100000, fun _ => 0, fun _ _ => 0, fun _ => 10, none, 0, [], [], fun _ => false, fun _ => [], []⟩

/-- A state holding only the stale order. -/
def st2 : AppState := ⟨⟨[staleRow], []⟩, []⟩

/-- Python-level validation of `get_structure_market`: the argument is a
str or int, and the cname ValueError branch is not taken. -/
def validStructureInput : StrOrInt → Option String → Bool
  | .other _, _ => false
  | .str _, c => !strFalsy c
  | .int n, c => !(n == 0 && strFalsy c)

/-- A str-or-int argument (the TypeError branch is not taken). -/
def strOrIntOnly : StrOrInt → Bool
  | .other _ => false
  | .str _ => true
  | .int _ => true

/-- The region id and the resolution effects of `get_region_market` for
a given first argument. -/
def regionResolve (env : Env) : StrOrInt → Int × List Effect
  | .str nm => (env.search_id nm "region", [Effect.search_id nm "region"])
  | .int n => (n, [])
  | .other _ => (0, [])

/-- A row of a complete, recent snapshot for structure 777 (1000 such
rows make the oracle's `min_fresh_entry=1000` count pass). -/
def freshRow : OrderRow := ⟨1, 34, 10, 0, 777, false, 5, 10, 90, 0, 99500⟩

/-- An environment with the clock at 100000 that resolves every
structure argument to id 777. -/
def env3 : Env :=
  ⟨100000, fun _ => 777, fun _ _ => 0, fun _ => 0, none, 0, [], [], fun _ => false, fun _ => [], []⟩

/-- A state whose orders table holds the 1000-row fresh snapshot of
structure 777 and whose response cache is empty. -/
def freshSt : AppState := ⟨⟨List.replicate 1000 freshRow, []⟩, []⟩

/-- An arbitrary cached payload for the cache-hit fixtures. -/
def cachedVal : CacheValue := .orders [staleRow]

/-- An environment whose structure resolver maps an integer id to
itself (the authenticating cname plays no role in resolution). -/
def env4 : Env :=
  ⟨10, fun s => match s with | .int n => n | _ => 0, fun _ _ => 0, fun _ => 0,
   none, 0, [], [], fun _ => false, fun _ => [], []⟩

/-- A state whose response cache holds an unexpired entry for the
structure-7 call with no keyword arguments. -/
def st4 : AppState :=
  ⟨⟨[], []⟩, [⟨structure_market_key env4 (.int 7) emptyKwd, cachedVal, 50⟩]⟩

/-- An environment whose validity check rejects every type id (so every
per-type history result is absent). -/
def envH : Env :=
  ⟨1000000, fun _ => 0, fun _ _ => 0, fun _ => 0, none, 0, [], [], fun _ => false, fun _ => [], []⟩

/-- One raw daily history record dated 2022-05-28. -/
def rawSample : RawHistory := ⟨⟨2022, 5, 28⟩, 100, 120, 90, 500, 30⟩

/-- An environment whose validity check accepts every type id and whose
history endpoint returns the single sample record. -/
def envD : Env :=
  ⟨1000000, fun _ => 0, fun _ _ => 0, fun _ => 0, none, 0, [], [],
   fun _ => true, fun _ => [rawSample], []⟩

/-- Number of stored order rows with a given `order_id`. -/
def countOrdersAt (t : List OrderRow) (i : Int) : Nat :=
  (t.filter (fun x => x.order_id == i)).length

/-- Number of stored history rows with a given dedup key. -/
def countHistAt (t : List HistoryRow) (k : Int × Int × Int) : Nat :=
  (t.filter (fun x => historyKey x == k)).length

/-- A later snapshot of the same order as `staleRow` (same `order_id` 1,
changed price / volume / retrieve_time). -/
def staleRow2 : OrderRow := ⟨1, 34, 10, 0, 100, false, 7, 8, 90, 0, 50⟩

/-- A stored history day. -/
def histA : HistoryRow := ⟨10, 34, 1000, 1, 2, 0, 5, 3⟩

/-- A colliding later write for the same (region, type, date) key with
different values. -/
def histB : HistoryRow := ⟨10, 34, 1000, 9, 9, 9, 9, 9⟩

theorem listMax_mem {l : List Int} {m : Int} (h : listMax l = some m) : m ∈ l := by
  induction l with
  | nil => simp [listMax] at h
  | cons x xs ih =>
      simp only [listMax] at h
      cases hxs : listMax xs with
      | none => rw [hxs] at h; simp at h; simp [h]
      | some m' =>
          rw [hxs] at h
          simp at h
          rcases max_choice x m' with hc | hc
          · rw [h] at hc
            rw [← hc]
            exact List.mem_cons_self m xs
          · rw [h] at hc
            subst hc
            exact List.mem_cons_of_mem _ (ih hxs)

theorem utcMidnight_sample : utcMidnight ⟨2022, 5, 28⟩ = 1653696000 := by decide

theorem get_structure_market_valid (env : Env) (st : AppState) (s : StrOrInt)
    (c : Option String) (kwd : Kwd) (h : validStructureInput s c = true) :
    get_structure_market env st s c kwd = structure_market_go env st s kwd := by
  cases s with
  | other r => simp [validStructureInput] at h
  | str nm =>
      simp only [validStructureInput, Bool.not_eq_true'] at h
      simp [get_structure_market, h]
  | int n =>
      simp only [validStructureInput, Bool.not_eq_true'] at h
      simp [get_structure_market, h]

theorem filter_replicate_pos {α : Type} (p : α → Bool) (a : α) (h : p a = true) :
    ∀ n, (List.replicate n a).filter p = List.replicate n a := by
  intro n
  induction n with
  | zero => rfl
  | succ k ih => simp [List.replicate_succ, List.filter_cons, h, ih]

theorem listMax_cons (x : Int) (xs : List Int) :
    listMax (x :: xs) =
      (match listMax xs with
        | none => some x
        | some m => some (max x m)) := rfl

theorem listMax_replicate (a : Int) : ∀ n, n ≠ 0 → listMax (List.replicate n a) = some a := by
  intro n
  induction n with
  | zero => intro h; exact absurd rfl h
  | succ k ih =>
      intro _
      rw [List.replicate_succ]
      cases k with
      | zero => rfl
      | succ j =>
          rw [listMax_cons, ih (Nat.succ_ne_zero j)]
          simp

theorem countEq_replicate (a : Int) (n : Nat) : countEq (List.replicate n a) a = n := by
  unfold countEq
  rw [filter_replicate_pos _ _ (by simp) n]
  simp

theorem oracle_fresh_replicate :
    _update_or_not 98800 (List.replicate 1000 (99500 : Int)) true 1000 = (false, some 99500) := by
  unfold _update_or_not
  rw [listMax_replicate 99500 1000 (by norm_num)]
  norm_num [countEq_replicate]

theorem freshSt_ts :
    ((freshSt.db.orders.filter
      (fun r => r.location_id == env3.search_structure_id (.int 777))).map
        (fun r => r.retrieve_time)) = List.replicate 1000 (99500 : Int) := by
  rw [show freshSt.db.orders = List.replicate 1000 freshRow from rfl,
    filter_replicate_pos _ _ (by decide), List.map_replicate]
  rfl

theorem freshSt_oracle :
    structureOracleDec env3 freshSt (.int 777) emptyKwd = (false, some 99500) := by
  unfold structureOracleDec
  rw [freshSt_ts]
  norm_num [env3, kwdThreshold, intTruthy, emptyKwd]
  exact oracle_fresh_replicate

theorem freshSt_sel :
    _select_from_orders freshSt.db "all" none none
      (some (env3.search_structure_id (.int 777))) (some 99500) =
      List.replicate 1000 freshRow := by
  unfold _select_from_orders
  rw [show freshSt.db.orders = List.replicate 1000 freshRow from rfl,
    filter_replicate_pos _ _ (by decide)]

/-- C1: for every freshness decision with threshold `T`, stored maximum
`M` of the timestamp column over the matching rows and `rowCountAt(M)`
the number of matching rows at `M`, the needs-update flag is true iff
`M` is absent, or `M < T`, or (when `fresh_entry_check` is enabled)
`rowCountAt(M) < min_fresh_entry`; otherwise the flag is false and the
found maximum timestamp is returned. -/
theorem freshness_decision_iff (T : Int) (ts : List Int) (fec : Bool) (mfe : Nat) :
    ((_update_or_not T ts fec mfe).1 = true ↔
      listMax ts = none ∨
        ∃ m, listMax ts = some m ∧ (m < T ∨ (fec = true ∧ countEq ts m < mfe))) ∧
    ((_update_or_not T ts fec mfe).1 = false →
      (_update_or_not T ts fec mfe).2 = listMax ts) := by
  unfold _update_or_not
  cases h : listMax ts with
  | none => simp [h]
  | some m =>
      by_cases h1 : m < T
      · simp [h, h1]
      · cases fec with
        | false => simp [h, h1]
        | true =>
            by_cases h2 : countEq ts m < mfe
            · simp [h, h1, h2]
            · simp [h, h1, h2]

/-- Witness for `freshness_decision_iff` at a concrete fresh state. -/
theorem freshness_decision_iff_witness :
    (_update_or_not 5 [7, 7] true 2).1 = false ∧
    (_update_or_not 5 [7, 7] true 2).2 = listMax [7, 7] :=
  ⟨by decide, (freshness_decision_iff 5 [7, 7] true 2).2 (by decide)⟩

/-- C2 (code bug): `get_station_market` binds the needs-update flag of
`_update_or_not` to a variable named `no_update_flag` and runs the fetch
branch on `if not no_update_flag:`, inverting the oracle. At a state
whose only matching order snapshot is 100000 seconds old (far beyond the
1200 second threshold) the oracle reports stale, yet the call performs
no remote fetch at all (no HEAD, no GET, no region-market call) and
returns the stale store rows. -/
theorem station_market_inverts_freshness :
    (_update_or_not (env2.now - 1200)
      ((st2.db.orders.filter (fun r => r.region_id == 10 && r.location_id == 100)).map
        (fun r => r.retrieve_time)) true 1000).1 = true ∧
    get_station_market env2 st2 (.int 100) "all" none emptyKwd =
      ([Effect.search_station_region_id 100, Effect.oracleCheck "orders",
        Effect.storeSelect "orders"], .ok (st2, .orders [staleRow])) ∧
    Effect.esiGet "region_orders" ∉ (get_station_market env2 st2 (.int 100) "all" none emptyKwd).1 ∧
    Effect.head "region_orders" ∉ (get_station_market env2 st2 (.int 100) "all" none emptyKwd).1 := by
  decide

/-- C10: `get_structure_market` called with the integer structure id 0
and no cname raises the cname ValueError, because `not sid` tests the
id for Python truthiness; any nonzero integer id passes the check and the
call proceeds into the normal body with no cname required. -/
theorem structure_zero_id_requires_cname (env : Env) (st : AppState) (kwd : Kwd) :
    get_structure_market env st (.int 0) none kwd =
      ([], .error (.valueError "Require parameter cname for authentication")) ∧
    ∀ n : Int, n ≠ 0 →
      get_structure_market env st (.int n) none kwd = structure_market_go env st (.int n) kwd := by
  constructor
  · rfl
  · intro n hn
    simp [get_structure_market, strFalsy, hn]

/-- Witness for `structure_zero_id_requires_cname` at the id 5. -/
theorem structure_zero_id_requires_cname_witness :
    get_structure_market env0 st0 (.int 0) none emptyKwd =
      ([], .error (.valueError "Require parameter cname for authentication")) ∧
    get_structure_market env0 st0 (.int 5) none emptyKwd =
      structure_market_go env0 st0 (.int 5) emptyKwd :=
  ⟨(structure_zero_id_requires_cname env0 st0 emptyKwd).1,
   (structure_zero_id_requires_cname env0 st0 emptyKwd).2 5 (by decide)⟩

theorem structure_market_go_hit (env : Env) (st : AppState) (s : StrOrInt) (kwd : Kwd)
    (v : CacheValue)
    (hhit : cache_get st.cache env.now (structure_market_key env s kwd) = some v) :
    structure_market_go env st s kwd =
      ([Effect.search_structure_id, Effect.head "structure_orders",
        Effect.cacheGet (structure_market_key env s kwd)], .ok (st, v)) := by
  simp only [structure_market_go]
  rw [hhit]

theorem structure_market_go_fresh (env : Env) (st : AppState) (s : StrOrInt) (kwd : Kwd)
    (hmiss : cache_get st.cache env.now (structure_market_key env s kwd) = none)
    (hf : (structureOracleDec env st s kwd).1 = false) :
    structure_market_go env st s kwd =
      ([Effect.search_structure_id, Effect.head "structure_orders",
        Effect.cacheGet (structure_market_key env s kwd),
        Effect.oracleCheck "orders", Effect.storeSelect "orders"],
       .ok (st, .orders (_select_from_orders st.db "all" none none
         (some (env.search_structure_id s)) (structureOracleDec env st s kwd).2))) := by
  simp only [structure_market_go]
  rw [hmiss]
  simp [hf]

theorem structure_market_go_fetch (env : Env) (st : AppState) (s : StrOrInt) (kwd : Kwd)
    (hmiss : cache_get st.cache env.now (structure_market_key env s kwd) = none)
    (ht : (structureOracleDec env st s kwd).1 = true) :
    structure_market_go env st s kwd =
      ([Effect.search_structure_id, Effect.head "structure_orders",
        Effect.cacheGet (structure_market_key env s kwd),
        Effect.oracleCheck "orders", Effect.esiGet "structure_orders",
        Effect.storeUpsert "orders", Effect.cacheSet (structure_market_key env s kwd)],
       .ok (⟨⟨orders_insert_update st.db.orders (structureFetchDf env kwd),
              st.db.market_history⟩,
             cache_set st.cache env.now (structure_market_key env s kwd)
               (.orders (structureFetchDf env kwd)) (kwdExpires env kwd)⟩,
            .orders (structureFetchDf env kwd))) := by
  simp only [structure_market_go]
  rw [hmiss]
  simp [ht]

theorem region_market_go_hit (env : Env) (st : AppState) (rid : Int) (ot : String)
    (tid : Option Int) (kwd : Kwd) (tr0 : List Effect) (v : CacheValue)
    (hot : validOrderType ot = true)
    (hhit : cache_get st.cache env.now (region_market_key rid ot tid kwd) = some v) :
    region_market_go env st rid ot tid kwd tr0 =
      (tr0 ++ [Effect.head "region_orders", Effect.cacheGet (region_market_key rid ot tid kwd)],
       .ok (st, v)) := by
  simp only [region_market_go]
  rw [hot, hhit]
  rfl

theorem region_market_go_fresh (env : Env) (st : AppState) (rid : Int) (ot : String)
    (tid : Option Int) (kwd : Kwd) (tr0 : List Effect)
    (hot : validOrderType ot = true)
    (hmiss : cache_get st.cache env.now (region_market_key rid ot tid kwd) = none)
    (hf : (regionOracleDec env st rid kwd).1 = false) :
    region_market_go env st rid ot tid kwd tr0 =
      (tr0 ++ [Effect.head "region_orders", Effect.cacheGet (region_market_key rid ot tid kwd),
        Effect.oracleCheck "orders", Effect.storeSelect "orders"],
       .ok (st, .orders (_select_from_orders st.db ot tid (some rid) none
         (regionOracleDec env st rid kwd).2))) := by
  simp only [region_market_go]
  rw [hot, hmiss]
  simp [hf]

theorem region_market_go_fetch (env : Env) (st : AppState) (rid : Int) (ot : String)
    (tid : Option Int) (kwd : Kwd) (tr0 : List Effect)
    (hot : validOrderType ot = true)
    (hmiss : cache_get st.cache env.now (region_market_key rid ot tid kwd) = none)
    (ht : (regionOracleDec env st rid kwd).1 = true) :
    region_market_go env st rid ot tid kwd tr0 =
      (tr0 ++ [Effect.head "region_orders", Effect.cacheGet (region_market_key rid ot tid kwd),
        Effect.oracleCheck "orders", Effect.esiGet "region_orders",
        Effect.storeUpsert "orders", Effect.cacheSet (region_market_key rid ot tid kwd)],
       .ok (⟨⟨orders_insert_update st.db.orders (regionFetchDf env rid),
              st.db.market_history⟩,
             cache_set st.cache env.now (region_market_key rid ot tid kwd)
               (.orders (regionFetchDf env rid)) (kwdExpires env kwd)⟩,
            .orders (regionFetchDf env rid))) := by
  simp only [region_market_go]
  rw [hot, hmiss]
  simp [ht]

/-- C3 counterexample: at a state whose stored structure-777 snapshot is
fresh (1000 rows at a recent timestamp, passing `min_fresh_entry`) and
whose response cache is empty, `get_structure_market` takes the fresh
store-read path and returns with the state unchanged: the final cache is
still the empty one, the trace has no `cacheSet`, and the run consulted
the oracle. An identical second call therefore replays this very run
(the state is unchanged) and is not a ResponseCache hit — refuting the
claim that a fresh-path read creates a cache entry. -/
theorem fresh_read_not_cached_cx :
    get_structure_market env3 freshSt (.int 777) none emptyKwd =
      ([Effect.search_structure_id, Effect.head "structure_orders",
        Effect.cacheGet (structure_market_key env3 (.int 777) emptyKwd),
        Effect.oracleCheck "orders", Effect.storeSelect "orders"],
       .ok (freshSt, .orders (List.replicate 1000 freshRow))) ∧
    freshSt.cache = [] := by
  refine ⟨?_, rfl⟩
  rw [get_structure_market_valid env3 freshSt (.int 777) none emptyKwd (by decide)]
  rw [structure_market_go_fresh env3 freshSt (.int 777) emptyKwd rfl
    (by rw [freshSt_oracle])]
  rw [freshSt_oracle]
  rw [show ((false : Bool), some (99500 : Int)).2 = some (99500 : Int) from rfl]
  rw [freshSt_sel]

/-- C3 amended: a market query that misses the ResponseCache creates a
cache entry for the computed key only when the result comes from a
remote fetch; when the result comes from a fresh store read, the call
returns with the state unchanged and no cache entry is created (so a
subsequent identical call consults the FreshnessOracle again instead of
hitting the cache). Stated for `get_structure_market` and
`get_region_market`. -/
theorem cache_entry_only_after_fetch :
    (∀ env st s c kwd, validStructureInput s c = true →
      cache_get st.cache env.now (structure_market_key env s kwd) = none →
      ((structureOracleDec env st s kwd).1 = false →
        get_structure_market env st s c kwd =
          ([Effect.search_structure_id, Effect.head "structure_orders",
            Effect.cacheGet (structure_market_key env s kwd),
            Effect.oracleCheck "orders", Effect.storeSelect "orders"],
           .ok (st, .orders (_select_from_orders st.db "all" none none
             (some (env.search_structure_id s)) (structureOracleDec env st s kwd).2)))) ∧
      ((structureOracleDec env st s kwd).1 = true →
        get_structure_market env st s c kwd =
          ([Effect.search_structure_id, Effect.head "structure_orders",
            Effect.cacheGet (structure_market_key env s kwd),
            Effect.oracleCheck "orders", Effect.esiGet "structure_orders",
            Effect.storeUpsert "orders", Effect.cacheSet (structure_market_key env s kwd)],
           .ok (⟨⟨orders_insert_update st.db.orders (structureFetchDf env kwd),
                  st.db.market_history⟩,
                 cache_set st.cache env.now (structure_market_key env s kwd)
                   (.orders (structureFetchDf env kwd)) (kwdExpires env kwd)⟩,
                .orders (structureFetchDf env kwd))))) ∧
    (∀ env st rid ot tid kwd, validOrderType ot = true →
      cache_get st.cache env.now (region_market_key rid ot tid kwd) = none →
      ((regionOracleDec env st rid kwd).1 = false →
        get_region_market env st (.int rid) ot tid kwd =
          ([Effect.head "region_orders", Effect.cacheGet (region_market_key rid ot tid kwd),
            Effect.oracleCheck "orders", Effect.storeSelect "orders"],
           .ok (st, .orders (_select_from_orders st.db ot tid (some rid) none
             (regionOracleDec env st rid kwd).2)))) ∧
      ((regionOracleDec env st rid kwd).1 = true →
        get_region_market env st (.int rid) ot tid kwd =
          ([Effect.head "region_orders", Effect.cacheGet (region_market_key rid ot tid kwd),
            Effect.oracleCheck "orders", Effect.esiGet "region_orders",
            Effect.storeUpsert "orders", Effect.cacheSet (region_market_key rid ot tid kwd)],
           .ok (⟨⟨orders_insert_update st.db.orders (regionFetchDf env rid),
                  st.db.market_history⟩,
                 cache_set st.cache env.now (region_market_key rid ot tid kwd)
                   (.orders (regionFetchDf env rid)) (kwdExpires env kwd)⟩,
                .orders (regionFetchDf env rid))))) := by
  constructor
  · intro env st s c kwd hv hmiss
    rw [get_structure_market_valid env st s c kwd hv]
    exact ⟨fun hf => structure_market_go_fresh env st s kwd hmiss hf,
           fun ht => structure_market_go_fetch env st s kwd hmiss ht⟩
  · intro env st rid ot tid kwd hot hmiss
    rw [show get_region_market env st (.int rid) ot tid kwd =
      region_market_go env st rid ot tid kwd [] from rfl]
    exact ⟨fun hf => by rw [region_market_go_fresh env st rid ot tid kwd [] hot hmiss hf]; rfl,
           fun ht => by rw [region_market_go_fetch env st rid ot tid kwd [] hot hmiss ht]; rfl⟩

/-- Witness for `cache_entry_only_after_fetch`: on the empty store both
queries take the fetch path and end in `cache_set`. -/
theorem cache_entry_only_after_fetch_witness :
    get_structure_market env0 st0 (.int 5) none emptyKwd =
      ([Effect.search_structure_id, Effect.head "structure_orders",
        Effect.cacheGet (structure_market_key env0 (.int 5) emptyKwd),
        Effect.oracleCheck "orders", Effect.esiGet "structure_orders",
        Effect.storeUpsert "orders", Effect.cacheSet (structure_market_key env0 (.int 5) emptyKwd)],
       .ok (⟨⟨orders_insert_update st0.db.orders (structureFetchDf env0 emptyKwd),
              st0.db.market_history⟩,
             cache_set st0.cache env0.now (structure_market_key env0 (.int 5) emptyKwd)
               (.orders (structureFetchDf env0 emptyKwd)) (kwdExpires env0 emptyKwd)⟩,
            .orders (structureFetchDf env0 emptyKwd))) ∧
    get_region_market env0 st0 (.int 3) "all" none emptyKwd =
      ([Effect.head "region_orders", Effect.cacheGet (region_market_key 3 "all" none emptyKwd),
        Effect.oracleCheck "orders", Effect.esiGet "region_orders",
        Effect.storeUpsert "orders", Effect.cacheSet (region_market_key 3 "all" none emptyKwd)],
       .ok (⟨⟨orders_insert_update st0.db.orders (regionFetchDf env0 3),
              st0.db.market_history⟩,
             cache_set st0.cache env0.now (region_market_key 3 "all" none emptyKwd)
               (.orders (regionFetchDf env0 3)) (kwdExpires env0 emptyKwd)⟩,
            .orders (regionFetchDf env0 3))) :=
  ⟨(cache_entry_only_after_fetch.1 env0 st0 (.int 5) none emptyKwd (by decide) rfl).2 (by decide),
   (cache_entry_only_after_fetch.2 env0 st0 3 "all" none emptyKwd (by decide) rfl).2 (by decide)⟩

/-- C8: two calls of `get_structure_market` with the same integer
structure id and keyword arguments but different (or absent) cname
values are indistinguishable — same computed cache key, same whole
result — and when the key is present unexpired in the ResponseCache the
call returns the cached value with the trace
`[resolution, HEAD, cache read]` only: no oracle, no store select, no
store upsert. -/
theorem cache_key_excludes_cname (env : Env) (st : AppState) (n : Int)
    (c1 c2 : Option String) (kwd : Kwd) (v : CacheValue) (hn : n ≠ 0)
    (hhit : cache_get st.cache env.now (structure_market_key env (.int n) kwd) = some v) :
    get_structure_market env st (.int n) c1 kwd = get_structure_market env st (.int n) c2 kwd ∧
    get_structure_market env st (.int n) c1 kwd =
      ([Effect.search_structure_id, Effect.head "structure_orders",
        Effect.cacheGet (structure_market_key env (.int n) kwd)], .ok (st, v)) ∧
    Effect.oracleCheck "orders" ∉ (get_structure_market env st (.int n) c1 kwd).1 ∧
    Effect.storeSelect "orders" ∉ (get_structure_market env st (.int n) c1 kwd).1 ∧
    Effect.storeUpsert "orders" ∉ (get_structure_market env st (.int n) c1 kwd).1 := by
  have hv : ∀ c, get_structure_market env st (.int n) c kwd =
      structure_market_go env st (.int n) kwd := by
    intro c
    apply get_structure_market_valid
    simp [validStructureInput, hn]
  have hgo := structure_market_go_hit env st (.int n) kwd v hhit
  refine ⟨by rw [hv c1, hv c2], by rw [hv c1, hgo], ?_, ?_, ?_⟩ <;>
    rw [hv c1, hgo] <;> simp

/-- Witness for `cache_key_excludes_cname` at id 7 against a primed
cache. -/
theorem cache_key_excludes_cname_witness :
    get_structure_market env4 st4 (.int 7) (some "alice") emptyKwd =
      get_structure_market env4 st4 (.int 7) none emptyKwd ∧
    get_structure_market env4 st4 (.int 7) (some "alice") emptyKwd =
      ([Effect.search_structure_id, Effect.head "structure_orders",
        Effect.cacheGet (structure_market_key env4 (.int 7) emptyKwd)], .ok (st4, cachedVal)) :=
  ⟨(cache_key_excludes_cname env4 st4 7 (some "alice") none emptyKwd cachedVal
      (by decide) (by decide)).1,
   (cache_key_excludes_cname env4 st4 7 (some "alice") none emptyKwd cachedVal
      (by decide) (by decide)).2.1⟩

/-- C9: every validated call of `get_structure_market` or
`get_region_market` issues the remote HEAD probe before the
ResponseCache is consulted: the effect trace always begins with the
name resolution (when any), then `head`, then `cacheGet` — so even a
call ultimately served from the cache performs one remote request, and
the cache is never read before the HEAD completes. -/
theorem head_probe_before_cache :
    (∀ env st s c kwd, validStructureInput s c = true →
      ((get_structure_market env st s c kwd).1).take 3 =
        [Effect.search_structure_id, Effect.head "structure_orders",
         Effect.cacheGet (structure_market_key env s kwd)]) ∧
    (∀ env st s ot tid kwd, strOrIntOnly s = true → validOrderType ot = true →
      ((get_region_market env st s ot tid kwd).1).take ((regionResolve env s).2.length + 2) =
        (regionResolve env s).2 ++ [Effect.head "region_orders",
          Effect.cacheGet (region_market_key (regionResolve env s).1 ot tid kwd)]) := by
  constructor
  · intro env st s c kwd hv
    rw [get_structure_market_valid env st s c kwd hv]
    cases hcg : cache_get st.cache env.now (structure_market_key env s kwd) with
    | some v => rw [structure_market_go_hit env st s kwd v hcg]; rfl
    | none =>
        cases hdec : (structureOracleDec env st s kwd).1 with
        | false => rw [structure_market_go_fresh env st s kwd hcg hdec]; rfl
        | true => rw [structure_market_go_fetch env st s kwd hcg hdec]; rfl
  · intro env st s ot tid kwd hs hot
    have hgo : get_region_market env st s ot tid kwd =
        region_market_go env st (regionResolve env s).1 ot tid kwd (regionResolve env s).2 := by
      cases s with
      | other r => simp [strOrIntOnly] at hs
      | str nm => rfl
      | int m => rfl
    rw [hgo]
    have hlen : ((regionResolve env s).2.length + 2) =
        ((regionResolve env s).2 ++ [Effect.head "region_orders",
          Effect.cacheGet (region_market_key (regionResolve env s).1 ot tid kwd)]).length := by
      simp
    cases hcg : cache_get st.cache env.now
        (region_market_key (regionResolve env s).1 ot tid kwd) with
    | some v =>
        rw [region_market_go_hit env st (regionResolve env s).1 ot tid kwd
          (regionResolve env s).2 v hot hcg]
        rw [hlen]
        exact List.take_length _
    | none =>
        cases hdec : (regionOracleDec env st (regionResolve env s).1 kwd).1 with
        | false =>
            rw [region_market_go_fresh env st (regionResolve env s).1 ot tid kwd
              (regionResolve env s).2 hot hcg hdec]
            rw [show (regionResolve env s).2 ++ [Effect.head "region_orders",
                Effect.cacheGet (region_market_key (regionResolve env s).1 ot tid kwd),
                Effect.oracleCheck "orders", Effect.storeSelect "orders"] =
              ((regionResolve env s).2 ++ [Effect.head "region_orders",
                Effect.cacheGet (region_market_key (regionResolve env s).1 ot tid kwd)]) ++
              [Effect.oracleCheck "orders", Effect.storeSelect "orders"] by simp]
            rw [hlen]
            exact List.take_left _ _
        | true =>
            rw [region_market_go_fetch env st (regionResolve env s).1 ot tid kwd
              (regionResolve env s).2 hot hcg hdec]
            rw [show (regionResolve env s).2 ++ [Effect.head "region_orders",
                Effect.cacheGet (region_market_key (regionResolve env s).1 ot tid kwd),
                Effect.oracleCheck "orders", Effect.esiGet "region_orders",
                Effect.storeUpsert "orders",
                Effect.cacheSet (region_market_key (regionResolve env s).1 ot tid kwd)] =
              ((regionResolve env s).2 ++ [Effect.head "region_orders",
                Effect.cacheGet (region_market_key (regionResolve env s).1 ot tid kwd)]) ++
              [Effect.oracleCheck "orders", Effect.esiGet "region_orders",
                Effect.storeUpsert "orders",
                Effect.cacheSet (region_market_key (regionResolve env s).1 ot tid kwd)] by simp]
            rw [hlen]
            exact List.take_left _ _

/-- Witness for `head_probe_before_cache`: a cache-hit structure call
and a name-resolved region call. -/
theorem head_probe_before_cache_witness :
    ((get_structure_market env4 st4 (.int 7) (some "alice") emptyKwd).1).take 3 =
      [Effect.search_structure_id, Effect.head "structure_orders",
       Effect.cacheGet (structure_market_key env4 (.int 7) emptyKwd)] ∧
    ((get_region_market env0 st0 (.str "The Forge") "all" none emptyKwd).1).take 3 =
      [Effect.search_id "The Forge" "region", Effect.head "region_orders",
       Effect.cacheGet (region_market_key 0 "all" none emptyKwd)] :=
  ⟨head_probe_before_cache.1 env4 st4 (.int 7) (some "alice") emptyKwd (by decide),
   head_probe_before_cache.2 env0 st0 (.str "The Forge") "all" none emptyKwd
     (by decide) (by decide)⟩

/-- C5 counterexample: `get_region_market` called with a region name
string and an unrecognized order_type does raise the ValueError, but
only after the name-resolution lookup `search_id` (an external, remote
backed collaborator call) has already run: the trace of the failing call
is nonempty, containing the lookup — refuting "raised before any remote
or store access" for this input. -/
theorem region_lookup_before_validation_cx :
    get_region_market env0 st0 (.str "The Forge") "invalid" none emptyKwd =
      ([Effect.search_id "The Forge" "region"],
       .error (.valueError "Argument order_type accepts one of sell, buy, all")) ∧
    (get_region_market env0 st0 (.str "The Forge") "invalid" none emptyKwd).1 ≠ [] := by
  decide

/-- C5 amended: the TypeError for a wrong identifier type is raised
synchronously with no prior access of any kind; the order-type
ValueError is raised before the HEAD probe and before any ResponseCache
or PersistentStore access, but when a name string is given the
name-resolution lookup runs first — with an integer id the ValueError
too is raised before any access. Stated for `get_region_market` and
`get_station_market`. -/
theorem validation_error_ordering :
    (∀ env st r ot tid kwd,
      get_region_market env st (.other r) ot tid kwd =
        ([], .error (.typeError "Argument region_name_or_id should be str or int"))) ∧
    (∀ env st n ot tid kwd, validOrderType ot = false →
      get_region_market env st (.int n) ot tid kwd =
        ([], .error (.valueError "Argument order_type accepts one of sell, buy, all"))) ∧
    (∀ env st nm ot tid kwd, validOrderType ot = false →
      get_region_market env st (.str nm) ot tid kwd =
        ([Effect.search_id nm "region"],
         .error (.valueError "Argument order_type accepts one of sell, buy, all"))) ∧
    (∀ env st r ot tid kwd,
      get_station_market env st (.other r) ot tid kwd =
        ([], .error (.typeError "Argument station_name_or_id should be str or int"))) ∧
    (∀ env st n ot tid kwd, validOrderType ot = false →
      get_station_market env st (.int n) ot tid kwd =
        ([], .error (.valueError "Argument order_type accepts one of sell, buy, all"))) ∧
    (∀ env st nm ot tid kwd, validOrderType ot = false →
      get_station_market env st (.str nm) ot tid kwd =
        ([Effect.search_id nm "station"],
         .error (.valueError "Argument order_type accepts one of sell, buy, all"))) := by
  refine ⟨fun env st r ot tid kwd => rfl, fun env st n ot tid kwd h => ?_,
    fun env st nm ot tid kwd h => ?_, fun env st r ot tid kwd => rfl,
    fun env st n ot tid kwd h => ?_, fun env st nm ot tid kwd h => ?_⟩ <;>
    simp [get_region_market, get_station_market, region_market_go, station_market_go, h]

/-- Witness for `validation_error_ordering` at concrete inputs for all
five raising shapes. -/
theorem validation_error_ordering_witness :
    get_region_market env0 st0 (.other "float 1.5") "all" none emptyKwd =
      ([], .error (.typeError "Argument region_name_or_id should be str or int")) ∧
    get_region_market env0 st0 (.int 10) "invalid" none emptyKwd =
      ([], .error (.valueError "Argument order_type accepts one of sell, buy, all")) ∧
    get_region_market env0 st0 (.str "The Forge") "invalid" none emptyKwd =
      ([Effect.search_id "The Forge" "region"],
       .error (.valueError "Argument order_type accepts one of sell, buy, all")) ∧
    get_station_market env0 st0 (.int 60003760) "invalid" none emptyKwd =
      ([], .error (.valueError "Argument order_type accepts one of sell, buy, all")) ∧
    get_station_market env0 st0 (.str "Jita IV") "invalid" none emptyKwd =
      ([Effect.search_id "Jita IV" "station"],
       .error (.valueError "Argument order_type accepts one of sell, buy, all")) :=
  ⟨validation_error_ordering.1 env0 st0 "float 1.5" "all" none emptyKwd,
   validation_error_ordering.2.1 env0 st0 10 "invalid" none emptyKwd (by decide),
   validation_error_ordering.2.2.1 env0 st0 "The Forge" "invalid" none emptyKwd (by decide),
   validation_error_ordering.2.2.2.2.1 env0 st0 60003760 "invalid" none emptyKwd (by decide),
   validation_error_ordering.2.2.2.2.2 env0 st0 "Jita IV" "invalid" none emptyKwd (by decide)⟩

/-- An absent per-type history result leaves the state untouched (the
absent branches of `_get_type_history_async` neither upsert nor cache). -/
theorem type_history_none_state (env : Env) (st : AppState) (rid tid : Int)
    (reduces : Option Reducer)
    (h : (_get_type_history_async env st rid tid reduces).2.2 = none) :
    (_get_type_history_async env st rid tid reduces).2.1 = st := by
  simp only [_get_type_history_async] at h ⊢
  split_ifs at h ⊢ <;> simp_all

theorem filterMap_all_none {α : Type} :
    ∀ l : List (Option α), (∀ r ∈ l, r = none) → l.filterMap id = [] := by
  intro l
  induction l with
  | nil => intro _; rfl
  | cons x xs ih =>
      intro h
      have hx := h x (List.mem_cons_self x xs)
      subst hx
      simp only [List.filterMap_cons, id]
      exact ih (fun r hr => h r (List.mem_cons_of_mem _ hr))

theorem fan_fold_all_none (env : Env) (rid : Int) (reduces : Option Reducer) (st : AppState) :
    ∀ (tids : List Int) (tr : List Effect) (rs : List (Option (List HistoryRow))),
      (∀ tid ∈ tids, (_get_type_history_async env st rid tid reduces).2.2 = none) →
      (∀ r ∈ rs, r = none) →
      (tids.foldl (history_fan_step env rid reduces) (st, tr, rs)).1 = st ∧
      (∀ r ∈ (tids.foldl (history_fan_step env rid reduces) (st, tr, rs)).2.2, r = none) ∧
      (tids.foldl (history_fan_step env rid reduces) (st, tr, rs)).2.2.length =
        rs.length + tids.length := by
  intro tids
  induction tids with
  | nil =>
      intro tr rs _ h2
      exact ⟨rfl, h2, by simp⟩
  | cons t ts ih =>
      intro tr rs h1 h2
      have hnone := h1 t (List.mem_cons_self t ts)
      have hst := type_history_none_state env st rid t reduces hnone
      have hstep : history_fan_step env rid reduces (st, tr, rs) t =
          (st, tr ++ (_get_type_history_async env st rid t reduces).1, rs ++ [none]) := by
        simp only [history_fan_step]
        rw [show (_get_type_history_async env st rid t reduces) =
          ((_get_type_history_async env st rid t reduces).1,
           (_get_type_history_async env st rid t reduces).2.1,
           (_get_type_history_async env st rid t reduces).2.2) from rfl]
        rw [hst, hnone]
      rw [List.foldl_cons, hstep]
      have hres := ih (tr ++ (_get_type_history_async env st rid t reduces).1) (rs ++ [none])
        (fun tid htid => h1 tid (List.mem_cons_of_mem _ htid))
        (by
          intro r hr
          rcases List.mem_append.mp hr with hra | hrb
          · exact h2 r hra
          · simpa using hrb)
      refine ⟨hres.1, hres.2.1, ?_⟩
      rw [hres.2.2]
      simp
      omega

/-- C4 counterexample: `get_market_history` with the valid region id 10
and the single requested type id 2, where the validity check reports the
id invalid (every per-type result absent), raises the pandas ValueError
from concatenating an all-absent list instead of returning an empty
result. -/
theorem market_history_all_absent_cx :
    get_market_history envH st0 (.int 10) (some [2]) none =
      ([Effect.cacheGet (market_history_key 10 (PyVal.intList [2]) none),
        Effect.head "history", Effect.oracleCheck "market_history", Effect.typeCheck 2],
       .error (.valueError "All objects passed were None")) := by
  decide

/-- C4 amended: for every call of `get_market_history` with a valid
region id and a nonempty explicit type list that misses the cache, if
every per-type result is absent (invalid ids or empty history
responses), the call raises the ValueError of `pd.concat` over an
all-absent list; the no-data outcome is an exception, not an empty
result. -/
theorem market_history_all_absent (env : Env) (st : AppState) (rid : Int)
    (tids : List Int) (reduces : Option Reducer)
    (hne : tids ≠ [])
    (hmiss : cache_get st.cache env.now (market_history_key rid (PyVal.intList tids) reduces) = none)
    (habs : ∀ tid ∈ tids, (_get_type_history_async env st rid tid reduces).2.2 = none) :
    (get_market_history env st (.int rid) (some tids) reduces).2 =
      .error (.valueError "All objects passed were None") := by
  rw [show get_market_history env st (.int rid) (some tids) reduces =
    market_history_go env st rid (some tids) reduces [] from rfl]
  simp only [market_history_go]
  have hempty : tids.isEmpty = false := by
    cases tids with
    | nil => exact absurd rfl hne
    | cons a l => rfl
  simp only [hempty, Bool.false_eq_true, if_false, market_history_fetch, Option.getD]
  rw [hmiss]
  have hfold := fan_fold_all_none env rid reduces st tids
    ([] ++ [Effect.cacheGet (market_history_key rid (PyVal.intList tids) reduces)] ++
      [Effect.head "history"]) [] habs (by intro r hr; simp at hr)
  have hlen : (tids.foldl (history_fan_step env rid reduces)
      (st, [] ++ [Effect.cacheGet (market_history_key rid (PyVal.intList tids) reduces)] ++
        [Effect.head "history"], [])).2.2.length = tids.length := by
    rw [hfold.2.2]; simp
  have hconcat : pd_concat (tids.foldl (history_fan_step env rid reduces)
      (st, [] ++ [Effect.cacheGet (market_history_key rid (PyVal.intList tids) reduces)] ++
        [Effect.head "history"], [])).2.2 =
      .error (.valueError "All objects passed were None") := by
    simp only [pd_concat]
    have hne2 : (tids.foldl (history_fan_step env rid reduces)
        (st, [] ++ [Effect.cacheGet (market_history_key rid (PyVal.intList tids) reduces)] ++
          [Effect.head "history"], [])).2.2.isEmpty = false := by
      rw [List.isEmpty_eq_false]
      intro hnil
      rw [hnil] at hlen
      simp at hlen
      exact hne (List.length_eq_zero.mp hlen.symm)
    rw [hne2]
    simp only [Bool.false_eq_true, if_false]
    rw [filterMap_all_none _ hfold.2.1]
    rfl
  rw [hconcat]

/-- Witness for `market_history_all_absent` at region 10, type list
[2]. -/
theorem market_history_all_absent_witness :
    (get_market_history envH st0 (.int 10) (some [2]) none).2 =
      .error (.valueError "All objects passed were None") :=
  market_history_all_absent envH st0 10 [2] none (by decide) rfl (by decide)

/-- C7: on the fetch path of `_get_type_history_async` (stale store,
valid type id, nonempty response) every record is normalized by
`historyRowOfRaw` before being stored (insert-or-ignore upsert) and
returned, and each resulting date equals the epoch timestamp of that
day's midnight UTC plus exactly 39900 seconds — which is 11:05:00 UTC of
that day (`elevenOhFiveUTC`). -/
theorem history_date_normalization (env : Env) (st : AppState) (rid tid : Int)
    (hstale : (historyOracleDec env st rid tid).1 = true)
    (hvalid : env.typeValid tid = true)
    (hresp : env.historyResp tid ≠ []) :
    _get_type_history_async env st rid tid none =
      ([Effect.oracleCheck "market_history", Effect.typeCheck tid, Effect.esiGet "history",
        Effect.storeUpsert "market_history"],
       ⟨⟨st.db.orders, history_insert_ignore st.db.market_history
          ((env.historyResp tid).map (historyRowOfRaw rid tid))⟩, st.cache⟩,
       some ((env.historyResp tid).map (historyRowOfRaw rid tid))) ∧
    ∀ row ∈ (env.historyResp tid).map (historyRowOfRaw rid tid),
      ∃ raw ∈ env.historyResp tid,
        row.date = utcMidnight raw.date + 39900 ∧ row.date = elevenOhFiveUTC raw.date := by
  constructor
  · have hie : (env.historyResp tid).isEmpty = false := by
      rw [List.isEmpty_eq_false]
      exact hresp
    simp only [_get_type_history_async, hstale, hvalid, hie, applyReduces,
      Bool.not_true, Bool.false_eq_true, if_false, if_true]
    rfl
  · intro row hrow
    obtain ⟨raw, hraw, heq⟩ := List.mem_map.mp hrow
    refine ⟨raw, hraw, ?_, ?_⟩
    · rw [← heq]; rfl
    · rw [← heq]
      show pyDateStamp raw.date = elevenOhFiveUTC raw.date
      unfold pyDateStamp elevenOhFiveUTC
      norm_num

/-- Witness for `history_date_normalization` on the sample record. -/
theorem history_date_normalization_witness :
    _get_type_history_async envD st0 10 34 none =
      ([Effect.oracleCheck "market_history", Effect.typeCheck 34, Effect.esiGet "history",
        Effect.storeUpsert "market_history"],
       ⟨⟨st0.db.orders, history_insert_ignore st0.db.market_history
          ((envD.historyResp 34).map (historyRowOfRaw 10 34))⟩, st0.cache⟩,
       some ((envD.historyResp 34).map (historyRowOfRaw 10 34))) :=
  (history_date_normalization envD st0 10 34 (by decide) rfl (by decide)).1

theorem filter_length_map_congr {α : Type} (f : α → α) (p : α → Bool)
    (h : ∀ x, p (f x) = p x) :
    ∀ l : List α, ((l.map f).filter p).length = (l.filter p).length := by
  intro l
  induction l with
  | nil => rfl
  | cons x xs ih =>
      simp only [List.map_cons, List.filter_cons, h x]
      by_cases hx : p x = true
      · simp [hx, ih]
      · simp [hx, ih]

theorem countOrdersAt_map (t : List OrderRow) (r : OrderRow) (i : Int) :
    countOrdersAt (t.map (fun x => if x.order_id == r.order_id then r else x)) i =
      countOrdersAt t i := by
  unfold countOrdersAt
  apply filter_length_map_congr
  intro x
  by_cases hx : (x.order_id == r.order_id) = true
  · have hxe : x.order_id = r.order_id := by simpa using hx
    simp [hx, hxe]
  · simp [hx]

theorem orders_upsert_one_count (t : List OrderRow) (r : OrderRow) (i : Int)
    (h : countOrdersAt t i ≤ 1) : countOrdersAt (orders_upsert_one t r) i ≤ 1 := by
  unfold orders_upsert_one
  by_cases hany : (t.any (fun x => x.order_id == r.order_id)) = true
  · simp only [hany, if_true]
    rw [countOrdersAt_map]
    exact h
  · simp only [hany, Bool.false_eq_true, if_false]
    unfold countOrdersAt at h ⊢
    rw [List.filter_append, List.length_append]
    by_cases hri : (r.order_id == i) = true
    · have h0 : (t.filter (fun x => x.order_id == i)).length = 0 := by
        rw [List.length_eq_zero, List.filter_eq_nil_iff]
        intro a ha hai
        apply hany
        refine List.any_eq_true.mpr ⟨a, ha, ?_⟩
        have h1 : a.order_id = i := by simpa using hai
        have h2 : r.order_id = i := by simpa using hri
        simp [h1, h2]
      rw [h0]
      simp [hri]
    · simp only [List.filter_cons, hri, Bool.false_eq_true, if_false, List.filter_nil,
        List.length_nil, Nat.add_zero]
      exact h

theorem orders_insert_update_count (t : List OrderRow) (recs : List OrderRow) (i : Int)
    (h : countOrdersAt t i ≤ 1) : countOrdersAt (orders_insert_update t recs) i ≤ 1 := by
  induction recs generalizing t with
  | nil => exact h
  | cons r rs ih => exact ih (orders_upsert_one t r) (orders_upsert_one_count t r i h)

theorem orders_upsert_one_lastwrite (t : List OrderRow) (r : OrderRow) :
    r ∈ orders_upsert_one t r ∧
    ∀ x ∈ orders_upsert_one t r, x.order_id = r.order_id → x = r := by
  unfold orders_upsert_one
  by_cases hany : (t.any (fun x => x.order_id == r.order_id)) = true
  · simp only [hany, if_true]
    constructor
    · obtain ⟨y, hy, hyr⟩ := List.any_eq_true.mp hany
      refine List.mem_map.mpr ⟨y, hy, ?_⟩
      simp [hyr]
    · intro x hx hxid
      obtain ⟨y, hy, hyx⟩ := List.mem_map.mp hx
      by_cases hyr : (y.order_id == r.order_id) = true
      · rw [← hyx]
        simp [hyr]
      · rw [← hyx] at hxid
        simp only [hyr, Bool.false_eq_true, if_false] at hxid
        exact absurd hxid (by simpa using hyr)
  · simp only [hany, Bool.false_eq_true, if_false]
    constructor
    · simp
    · intro x hx hxid
      rcases List.mem_append.mp hx with hxt | hxr
      · exfalso
        apply hany
        exact List.any_eq_true.mpr ⟨x, hxt, by simpa using hxid⟩
      · simpa using hxr

theorem history_ignore_one_count (t : List HistoryRow) (r : HistoryRow) (k : Int × Int × Int)
    (h : countHistAt t k ≤ 1) : countHistAt (history_ignore_one t r) k ≤ 1 := by
  unfold history_ignore_one
  by_cases hany : (t.any (fun x => historyKey x == historyKey r)) = true
  · simp only [hany, if_true]
    exact h
  · simp only [hany, Bool.false_eq_true, if_false]
    unfold countHistAt at h ⊢
    rw [List.filter_append, List.length_append]
    by_cases hrk : (historyKey r == k) = true
    · have h0 : (t.filter (fun x => historyKey x == k)).length = 0 := by
        rw [List.length_eq_zero, List.filter_eq_nil_iff]
        intro a ha hak
        apply hany
        refine List.any_eq_true.mpr ⟨a, ha, ?_⟩
        have h1 : historyKey a = k := by simpa using hak
        have h2 : historyKey r = k := by simpa using hrk
        simp [h1, h2]
      rw [h0]
      simp [hrk]
    · simp only [List.filter_cons, hrk, Bool.false_eq_true, if_false, List.filter_nil,
        List.length_nil, Nat.add_zero]
      exact h

theorem history_insert_ignore_count (t : List HistoryRow) (recs : List HistoryRow)
    (k : Int × Int × Int) (h : countHistAt t k ≤ 1) :
    countHistAt (history_insert_ignore t recs) k ≤ 1 := by
  induction recs generalizing t with
  | nil => exact h
  | cons r rs ih => exact ih (history_ignore_one t r) (history_ignore_one_count t r k h)

theorem history_insert_ignore_keeps (recs : List HistoryRow) :
    ∀ t : List HistoryRow, (history_insert_ignore t recs).take t.length = t := by
  induction recs with
  | nil => intro t; exact List.take_length t
  | cons r rs ih =>
      intro t
      show (history_insert_ignore (history_ignore_one t r) rs).take t.length = t
      unfold history_ignore_one
      by_cases hany : (t.any (fun x => historyKey x == historyKey r)) = true
      · simp only [hany, if_true]
        exact ih t
      · simp only [hany, Bool.false_eq_true, if_false]
        have h1 := ih (t ++ [r])
        have h2 : (history_insert_ignore (t ++ [r]) rs).take t.length =
            ((history_insert_ignore (t ++ [r]) rs).take (t ++ [r]).length).take t.length := by
          rw [List.take_take]
          congr 1
          simp [Nat.min_def]
        rw [h2, h1]
        exact List.take_left t [r]

/-- C6: the store writes preserve the dedup-key invariants. Orders: the
at-most-one-row-per-order_id bound is preserved by every batched upsert,
and after upserting a record every stored row carrying its `order_id` is
that record (last write wins) while the record itself is present.
History: the at-most-one-row-per-(region_id, type_id, date) bound is
preserved, the previously stored rows survive every batched write
unchanged (they are the prefix of the result), and a colliding single
write leaves the table exactly as it was. -/
theorem upsert_dedup_invariants :
    (∀ t recs i, countOrdersAt t i ≤ 1 →
      countOrdersAt (orders_insert_update t recs) i ≤ 1) ∧
    (∀ t r, r ∈ orders_upsert_one t r ∧
      ∀ x ∈ orders_upsert_one t r, x.order_id = r.order_id → x = r) ∧
    (∀ t recs k, countHistAt t k ≤ 1 →
      countHistAt (history_insert_ignore t recs) k ≤ 1) ∧
    (∀ t recs, (history_insert_ignore t recs).take t.length = t) ∧
    (∀ t r, t.any (fun x => historyKey x == historyKey r) = true →
      history_ignore_one t r = t) :=
  ⟨orders_insert_update_count,
   orders_upsert_one_lastwrite,
   history_insert_ignore_count,
   fun t recs => history_insert_ignore_keeps recs t,
   fun t r hany => by unfold history_ignore_one; simp [hany]⟩

/-- Witness for `upsert_dedup_invariants` at colliding concrete rows. -/
theorem upsert_dedup_invariants_witness :
    countOrdersAt (orders_insert_update [staleRow] [staleRow2]) 1 ≤ 1 ∧
    staleRow2 ∈ orders_upsert_one [staleRow] staleRow2 ∧
    countHistAt (history_insert_ignore [histA] [histB]) (historyKey histA) ≤ 1 ∧
    (history_insert_ignore [histA] [histB]).take 1 = [histA] ∧
    history_ignore_one [histA] histB = [histA] :=
  ⟨upsert_dedup_invariants.1 [staleRow] [staleRow2] 1 (by decide),
   (upsert_dedup_invariants.2.1 [staleRow] staleRow2).1,
   upsert_dedup_invariants.2.2.1 [histA] [histB] (historyKey histA) (by decide),
   upsert_dedup_invariants.2.2.2.1 [histA] [histB],
   upsert_dedup_invariants.2.2.2.2 [histA] histB (by decide)⟩
